import Mathlib

/-!
Shallow embedding of the event-distribution core of the mingkwan-api
repository: the in-memory publish/subscribe bus (`internal/shared/event/
inmemory_bus.go`), the two `Publisher` variants (`internal/shared/event/
publisher.go`), the Asynq enqueue client (`internal/shared/event/
asynq_client.go`), the welcome-email task handler's decode step
(`internal/shared/event/task_handlers.go`) and the user in-memory
subscriber loops (`internal/user/delivery/user_inmemory_subscribers.go`).

Go maps and channels are modelled as explicit state: the bus state carries
the topic registry (a function from topic string to the list of channel
identifiers, in registration order), a heap of channel buffers, and the
list of drop diagnostics emitted so far.  Concurrency is modelled
sequentially: under the bus's RWMutex discipline every `PublishEvent`,
`SubscribeEvent` and `UnsubscribeEvent` is atomic with respect to the
others, so program behaviours are interleavings of these atomic steps; a
non-blocking channel send succeeds exactly when the bounded buffer has
space (no receiver can be mid-receive while the publish holds the read
lock in the modelled interleavings).
-/

namespace Mingkwan

/-- `primitive.ObjectID` (a 12-byte Mongo id) modelled as its numeric
value; only identity and its hex rendering matter here. -/
structure ObjectID where
  oid : Nat
deriving DecidableEq

/-- `event.UserCreatedPayload` from `event_types.go`. -/
structure UserCreatedPayload where
  UserID : ObjectID
  Name : String
  Email : String
deriving DecidableEq

/-- `event.UserUpdatedPayload` from `event_types.go`. -/
structure UserUpdatedPayload where
  UserID : ObjectID
  Name : String
  Email : String
deriving DecidableEq

/-- `event.UserDeletedPayload` from `event_types.go`. -/
structure UserDeletedPayload where
  UserID : ObjectID
deriving DecidableEq

/-- `event.SendWelcomeEmailPayload` from `event_types.go` (string
fields with json tags `user_id`, `email`, `name`). -/
structure SendWelcomeEmailPayload where
  UserID : String
  Email : String
  Name : String
deriving DecidableEq

/-- A Go `interface\x7b\x7d` value as it can occur on the event paths: one of
the catalogued payload structs, or any other runtime value (summarised by
an opaque tag, enough to model Go's type switches failing on it). -/
inductive GoAny
  | userCreated (p : UserCreatedPayload)
  | userUpdated (p : UserUpdatedPayload)
  | userDeleted (p : UserDeletedPayload)
  | sendWelcomeEmail (p : SendWelcomeEmailPayload)
  | other (tag : String)
deriving DecidableEq

/-- `type Topic string` from `event_types.go`. -/
abbrev Topic := String

/-- `event.UserCreatedInMemoryEvent`. -/
def UserCreatedInMemoryEvent : Topic := "user.created.inmemory"

/-- `event.UserUpdatedInMemoryEvent`. -/
def UserUpdatedInMemoryEvent : Topic := "user.updated.inmemory"

/-- `event.UserDeletedInMemoryEvent`. -/
def UserDeletedInMemoryEvent : Topic := "user.deleted.inmemory"

/-- `event.SendWelcomeEmailTaskName`. -/
def SendWelcomeEmailTaskName : String := "user:send_welcome_email"

/-- The closed catalog of in-memory event topics (the three `Topic`
constants of `event_types.go`). -/
def eventCatalog : List Topic :=
  [UserCreatedInMemoryEvent, UserUpdatedInMemoryEvent, UserDeletedInMemoryEvent]

/-- `payload.(UserCreatedPayload)` succeeds. -/
def isUserCreatedPayload : GoAny → Bool
  | .userCreated _ => true
  | _ => false

/-- `payload.(UserUpdatedPayload)` succeeds. -/
def isUserUpdatedPayload : GoAny → Bool
  | .userUpdated _ => true
  | _ => false

/-- `payload.(UserDeletedPayload)` succeeds. -/
def isUserDeletedPayload : GoAny → Bool
  | .userDeleted _ => true
  | _ => false

/-- The Event Catalog's payload contract: the payload's runtime type is
the one `event_types.go` declares for the topic. -/
def matchesCatalog (topic : Topic) (payload : GoAny) : Bool :=
  (topic = UserCreatedInMemoryEvent && isUserCreatedPayload payload) ||
  (topic = UserUpdatedInMemoryEvent && isUserUpdatedPayload payload) ||
  (topic = UserDeletedInMemoryEvent && isUserDeletedPayload payload)

/-- Capacity of a subscriber channel: `make(chan interface\x7b\x7d, 10)` in
`SubscribeEvent`. -/
def chanCapacity : Nat := 10

/-- One subscriber channel: its buffered contents (front = oldest) and
whether it has been closed. -/
structure Chan where
  buf : List GoAny
  closed : Bool
deriving DecidableEq

/-- A freshly made channel: empty buffer, open. -/
def Chan.new : Chan := { buf := [], closed := false }

/-- State of `InMemPubSub` (`inmemory_bus.go`): `subscribers` maps each
topic to the channel identifiers registered under it, in registration
order; `chans` is the channel heap (identifiers not yet allocated map to
`Chan.new` and are never referenced by the registry); `nextCh` is the next
fresh identifier; `dropLog` records one entry (the topic) per dropped
delivery, modelling the "channel is full, dropping event" log line. -/
structure InMemPubSub where
  subscribers : Topic → List Nat
  chans : Nat → Chan
  nextCh : Nat
  dropLog : List Topic

/-- The bus state right after construction: empty registry. -/
def emptyBus : InMemPubSub :=
  { subscribers := fun _ => [], chans := fun _ => Chan.new, nextCh := 0, dropLog := [] }

/-- One `select \x7b case sub <- payload: default: ... \x7d` step of
`PublishEvent`: the non-blocking send succeeds exactly when the bounded
buffer has space; on a full buffer the event is dropped for this one
subscriber and the drop is logged. -/
def InMemPubSub.trySend (p : InMemPubSub) (topic : Topic) (payload : GoAny)
    (sub : Nat) : InMemPubSub :=
  if (p.chans sub).buf.length < chanCapacity then
    { p with chans := fun i =>
        if i = sub then { p.chans sub with buf := (p.chans sub).buf ++ [payload] }
        else p.chans i }
  else
    { p with dropLog := p.dropLog ++ [topic] }

/-- `InMemPubSub.PublishEvent`: under the read lock, iterate over the
subscribers registered for `topic` and attempt a non-blocking send to
each. -/
def InMemPubSub.PublishEvent (p : InMemPubSub) (topic : Topic)
    (payload : GoAny) : InMemPubSub :=
  (p.subscribers topic).foldl (fun b sub => b.trySend topic payload sub) p

/-- `InMemPubSub.SubscribeEvent`: under the write lock, allocate a
buffered channel of capacity 10, append it to the topic's subscriber
list, and return it. -/
def InMemPubSub.SubscribeEvent (p : InMemPubSub) (topic : Topic) :
    InMemPubSub × Nat :=
  let ch := p.nextCh
  ({ subscribers := fun t =>
       if t = topic then p.subscribers t ++ [ch] else p.subscribers t,
     chans := fun i => if i = ch then Chan.new else p.chans i,
     nextCh := ch + 1,
     dropLog := p.dropLog }, ch)

/-- `InMemPubSub.UnsubscribeEvent`: under the write lock, scan the
topic's subscriber list for the channel; when found, remove that first
occurrence and close the channel; when absent, return without doing
anything. -/
def InMemPubSub.UnsubscribeEvent (p : InMemPubSub) (topic : Topic)
    (ch : Nat) : InMemPubSub :=
  if ch ∈ p.subscribers topic then
    { subscribers := fun t =>
        if t = topic then (p.subscribers t).erase ch else p.subscribers t,
      chans := fun i =>
        if i = ch then { p.chans i with closed := true } else p.chans i,
      nextCh := p.nextCh,
      dropLog := p.dropLog }
  else p

/-- The process heap as far as the bus singleton is concerned: allocated
bus instances by reference, the `globalPubSub` package variable, and the
next fresh reference. -/
structure World where
  heap : Nat → InMemPubSub
  globalPubSub : Option Nat
  nextRef : Nat

/-- `event.NewInMemoryBus`: when `globalPubSub` is nil, allocate a fresh
`InMemPubSub` with an empty registry and store its reference in
`globalPubSub`; either way return the `globalPubSub` reference. -/
def NewInMemoryBus (w : World) : World × Nat :=
  match w.globalPubSub with
  | some r => (w, r)
  | none =>
      let r := w.nextRef
      ({ heap := fun i => if i = r then emptyBus else w.heap i,
         globalPubSub := some r,
         nextRef := r + 1 }, r)

/-- Errors the bus-tier publisher can return (`publisher.go`). -/
inductive PublishError
  | invalidPayloadType (topic : Topic)
  | unsupportedTopic (topic : Topic)
deriving DecidableEq

/-- The type switch at the top of `LowImportancePublisher.Publish`
(part_006 lines 39-57, the full-catalog copy of `publisher.go`): each
catalogued topic asserts its declared payload struct, anything else is an
unsupported in-memory event topic. -/
def LowImportancePublisher.validate (topic : String) (payload : GoAny) :
    Option PublishError :=
  if topic = UserCreatedInMemoryEvent then
    if isUserCreatedPayload payload then none
    else some (.invalidPayloadType topic)
  else if topic = UserUpdatedInMemoryEvent then
    if isUserUpdatedPayload payload then none
    else some (.invalidPayloadType topic)
  else if topic = UserDeletedInMemoryEvent then
    if isUserDeletedPayload payload then none
    else some (.invalidPayloadType topic)
  else
    some (.unsupportedTopic topic)

/-- `LowImportancePublisher.Publish`: validate the payload against the
catalog; on failure return the error with the bus untouched; on success
delegate to `PublishEvent` and return nil. -/
def LowImportancePublisher.Publish (bus : InMemPubSub) (topic : String)
    (payload : GoAny) : Option PublishError × InMemPubSub :=
  match LowImportancePublisher.validate topic payload with
  | some e => (some e, bus)
  | none => (none, bus.PublishEvent topic payload)

/-- The reduced type switch of the second copy of `publisher.go` kept in
the repository (part_006 lines 115-122): only `user.created.inmemory` is
accepted there. -/
def LowImportancePublisher.validateReducedCopy (topic : String)
    (payload : GoAny) : Option PublishError :=
  if topic = UserCreatedInMemoryEvent then
    if isUserCreatedPayload payload then none
    else some (.invalidPayloadType topic)
  else
    some (.unsupportedTopic topic)

/-- `LowImportancePublisher.Publish` as in the reduced second copy of
`publisher.go`. -/
def LowImportancePublisher.PublishReducedCopy (bus : InMemPubSub)
    (topic : String) (payload : GoAny) : Option PublishError × InMemPubSub :=
  match LowImportancePublisher.validateReducedCopy topic payload with
  | some e => (some e, bus)
  | none => (none, bus.PublishEvent topic payload)

/-- An enqueue request as `asynq_client.go` builds it:
`asynq.NewTask(taskType, []byte(fmt.Sprintf("%v", payload)),
asynq.Queue("critical"), asynq.MaxRetry(3))`. -/
structure AsynqTask where
  typeName : String
  payload : String
  queue : String
  maxRetry : Nat
deriving DecidableEq

/-- The acknowledgment the external enqueue service returns
(`asynq.TaskInfo` at the boundary used here: id, type, queue). -/
structure AsynqTaskInfo where
  id : String
  taskType : String
  queue : String
deriving DecidableEq

/-- Lowercase hex digit. -/
def hexDigit (n : Nat) : Char :=
  if n < 10 then Char.ofNat (48 + n) else Char.ofNat (87 + n)

/-- The 24-digit lowercase hex rendering of an `ObjectID` (its
`String()` content). -/
def ObjectID.hexStr (o : ObjectID) : String :=
  String.mk ((List.range 24).map (fun i => hexDigit (o.oid / 16 ^ (23 - i) % 16)))

/-- `fmt.Sprintf("%v", payload)` for the payload values that can reach
`EnqueueTask`: a struct renders as `\x7b` + its fields in declaration
order separated by single spaces + `\x7d`; strings render bare; an
`ObjectID` renders through its `String()` method. -/
def goFmt : GoAny → String
  | .userCreated p =>
      "\x7bObjectID(\"" ++ p.UserID.hexStr ++ "\") " ++ p.Name ++ " " ++ p.Email ++ "\x7d"
  | .userUpdated p =>
      "\x7bObjectID(\"" ++ p.UserID.hexStr ++ "\") " ++ p.Name ++ " " ++ p.Email ++ "\x7d"
  | .userDeleted p =>
      "\x7bObjectID(\"" ++ p.UserID.hexStr ++ "\")\x7d"
  | .sendWelcomeEmail p =>
      "\x7b" ++ p.UserID ++ " " ++ p.Email ++ " " ++ p.Name ++ "\x7d"
  | .other tag => tag

/-- The task `AsynqClientImpl.EnqueueTask` constructs for a call:
payload bytes are the `%v` rendering, queue class `critical`,
`MaxRetry(3)`. -/
def mkTask (taskType : String) (payload : GoAny) : AsynqTask :=
  { typeName := taskType, payload := goFmt payload,
    queue := "critical", maxRetry := 3 }

/-- `AsynqClientImpl.EnqueueTask`, parameterised by the external
reliable-enqueue service `svc` (the `asynq.Client.Enqueue` boundary):
build the task, hand it to the service, wrap a service error, return nil
on acknowledgment. -/
def AsynqClientImpl.EnqueueTask (svc : AsynqTask → Except String AsynqTaskInfo)
    (taskType : String) (payload : GoAny) : Option String :=
  match svc (mkTask taskType payload) with
  | .error e => some ("could not enqueue task " ++ taskType ++ ": " ++ e)
  | .ok _ => none

/-- `HighImportancePublisher.Publish`: forward to `EnqueueTask`, wrap
its error, return nil on success. -/
def HighImportancePublisher.Publish (svc : AsynqTask → Except String AsynqTaskInfo)
    (taskType : String) (payload : GoAny) : Option String :=
  match AsynqClientImpl.EnqueueTask svc taskType payload with
  | some e => some ("failed to enqueue Asynq task " ++ taskType ++ ": " ++ e)
  | none => none

/-- What a subscriber loop can observe at its single suspension point:
a payload arriving on its inbox, or the parent context's cancellation. -/
inductive LoopEvent
  | msg (payload : GoAny)
  | cancelled

/-- `listenToUserCreatedEvents` run over a finite observation sequence:
returns the payloads its side effect processed, in order, and the number
of malformed-payload diagnostics logged.  A payload whose type assertion
to `UserCreatedPayload` fails is logged and discarded with `continue`;
cancellation stops the loop. -/
def runUserCreatedLoop : List LoopEvent → List UserCreatedPayload × Nat
  | [] => ([], 0)
  | .cancelled :: _ => ([], 0)
  | .msg e :: rest =>
      match e with
      | .userCreated p =>
          let r := runUserCreatedLoop rest
          (p :: r.1, r.2)
      | _ =>
          let r := runUserCreatedLoop rest
          (r.1, r.2 + 1)

/-- A sequence of `PublishEvent` calls to one topic, oldest first. -/
def publishSeq (bus : InMemPubSub) (topic : Topic) (ps : List GoAny) :
    InMemPubSub :=
  ps.foldl (fun b payload => b.PublishEvent topic payload) bus

/-! Model of the `encoding/json` decode performed by
`SendWelcomeEmailHandler` (`task_handlers.go`): `json.Unmarshal` of the
task's payload bytes into a `SendWelcomeEmailPayload`.  The parser below
follows the JSON grammar `encoding/json` accepts; number and string
escape contents are validated structurally (surrogate-pair fine points of
`\u` escapes are beyond what any theorem here depends on). -/

/-- JSON whitespace as `encoding/json` skips it. -/
def isWs (c : Char) : Bool :=
  c = ' ' || c = '\t' || c = '\n' || c = '\r'

/-- Skip leading JSON whitespace. -/
def skipWs (cs : List Char) : List Char := cs.dropWhile isWs

/-- A parsed JSON value.  Number lexemes are validated but their text is
not needed by the decode step modelled here, so `jnum` carries nothing. -/
inductive JVal
  | null
  | jbool (b : Bool)
  | jnum
  | jstr (s : String)
  | jarr (elems : List JVal)
  | jobj (members : List (String × JVal))

/-- Hex digit value of a char, if any. -/
def hexVal (c : Char) : Option Nat :=
  if '0' ≤ c ∧ c ≤ '9' then some (c.toNat - 48)
  else if 'a' ≤ c ∧ c ≤ 'f' then some (c.toNat - 87)
  else if 'A' ≤ c ∧ c ≤ 'F' then some (c.toNat - 55)
  else none

/-- Body of a JSON string after the opening quote: decode characters and
escapes up to the closing quote, returning the decoded string and the
remaining input. -/
def parseStringBody : List Char → List Char → Option (String × List Char)
  | [], _ => none
  | c :: rest, acc =>
    if c = '\"' then some (String.mk acc.reverse, rest)
    else if c = '\\' then
      match rest with
      | [] => none
      | e :: rest' =>
        if e = '\"' then parseStringBody rest' ('\"' :: acc)
        else if e = '\\' then parseStringBody rest' ('\\' :: acc)
        else if e = '/' then parseStringBody rest' ('/' :: acc)
        else if e = 'b' then parseStringBody rest' ('\x08' :: acc)
        else if e = 'f' then parseStringBody rest' ('\x0c' :: acc)
        else if e = 'n' then parseStringBody rest' ('\n' :: acc)
        else if e = 'r' then parseStringBody rest' ('\r' :: acc)
        else if e = 't' then parseStringBody rest' ('\t' :: acc)
        else if e = 'u' then
          match rest' with
          | h1 :: h2 :: h3 :: h4 :: rest'' =>
            match hexVal h1, hexVal h2, hexVal h3, hexVal h4 with
            | some a, some b, some c', some d =>
                let n := ((a * 16 + b) * 16 + c') * 16 + d
                let ch := if h : n.isValidChar then Char.ofNatAux n h else '�'
                parseStringBody rest'' (ch :: acc)
            | _, _, _, _ => none
          | _ => none
        else none
    else parseStringBody rest (c :: acc)

/-- Split a leading run of decimal digits. -/
def takeDigits (cs : List Char) : List Char × List Char :=
  (cs.takeWhile Char.isDigit, cs.dropWhile Char.isDigit)

/-- Validate a JSON number starting at the head of the input (which is a
`-` or a digit); return the remaining input. -/
def parseNumTail (cs : List Char) : Option (List Char) :=
  let cs1 := match cs with
    | '-' :: rest => rest
    | _ => cs
  match takeDigits cs1 with
  | ([], _) => none
  | (_ :: _, afterInt) =>
    let fracRes : Option (List Char) :=
      match afterInt with
      | '.' :: rest =>
        match takeDigits rest with
        | ([], _) => none
        | (_ :: _, r) => some r
      | _ => some afterInt
    match fracRes with
    | none => none
    | some afterFrac =>
      match afterFrac with
      | e :: rest =>
        if e = 'e' ∨ e = 'E' then
          let rest1 := match rest with
            | '+' :: r => r
            | '-' :: r => r
            | _ => rest
          match takeDigits rest1 with
          | ([], _) => none
          | (_ :: _, r) => some r
        else some afterFrac
      | [] => some afterFrac

/-- Match a fixed literal tail (`ull`, `rue`, `alse`). -/
def stripChars : List Char → List Char → Option (List Char)
  | [], cs => some cs
  | p :: ps, c :: cs => if c = p then stripChars ps cs else none
  | _ :: _, [] => none

mutual

/-- Parse one JSON value (fuel-indexed recursion; the fuel passed at the
top level always suffices because every recursive step consumes input). -/
def parseVal : Nat → List Char → Option (JVal × List Char)
  | 0, _ => none
  | fuel + 1, cs =>
    match skipWs cs with
    | [] => none
    | c :: rest =>
      if c = '\x7b' then parseMembersFirst fuel rest
      else if c = '[' then parseElemsFirst fuel rest
      else if c = '\"' then
        match parseStringBody rest [] with
        | some (s, rest') => some (.jstr s, rest')
        | none => none
      else if c = 'n' then
        match stripChars ['u', 'l', 'l'] rest with
        | some rest' => some (.null, rest')
        | none => none
      else if c = 't' then
        match stripChars ['r', 'u', 'e'] rest with
        | some rest' => some (.jbool true, rest')
        | none => none
      else if c = 'f' then
        match stripChars ['a', 'l', 's', 'e'] rest with
        | some rest' => some (.jbool false, rest')
        | none => none
      else if c = '-' ∨ c.isDigit then
        match parseNumTail (c :: rest) with
        | some rest' => some (.jnum, rest')
        | none => none
      else none

/-- Object body after the opening brace: either an immediate close or a
first `"key": value` member. -/
def parseMembersFirst : Nat → List Char → Option (JVal × List Char)
  | 0, _ => none
  | fuel + 1, cs =>
    match skipWs cs with
    | [] => none
    | c :: rest =>
      if c = '\x7d' then some (.jobj [], rest)
      else if c = '\"' then
        match parseStringBody rest [] with
        | some (k, r1) =>
          match skipWs r1 with
          | ':' :: r2 =>
            match parseVal fuel r2 with
            | some (v, r3) => parseMembersRest fuel r3 [(k, v)]
            | none => none
          | _ => none
        | none => none
      else none

/-- Object body after a member: close, or a comma and another member. -/
def parseMembersRest : Nat → List Char → List (String × JVal) →
    Option (JVal × List Char)
  | 0, _, _ => none
  | fuel + 1, cs, acc =>
    match skipWs cs with
    | [] => none
    | c :: rest =>
      if c = '\x7d' then some (.jobj acc, rest)
      else if c = ',' then
        match skipWs rest with
        | '\"' :: r0 =>
          match parseStringBody r0 [] with
          | some (k, r1) =>
            match skipWs r1 with
            | ':' :: r2 =>
              match parseVal fuel r2 with
              | some (v, r3) => parseMembersRest fuel r3 (acc ++ [(k, v)])
              | none => none
            | _ => none
          | none => none
        | _ => none
      else none

/-- Array body after the opening bracket. -/
def parseElemsFirst : Nat → List Char → Option (JVal × List Char)
  | 0, _ => none
  | fuel + 1, cs =>
    match skipWs cs with
    | [] => none
    | c :: rest =>
      if c = ']' then some (.jarr [], rest)
      else
        match parseVal fuel cs with
        | some (v, r1) => parseElemsRest fuel r1 [v]
        | none => none

/-- Array body after an element: close, or a comma and another element. -/
def parseElemsRest : Nat → List Char → List JVal → Option (JVal × List Char)
  | 0, _, _ => none
  | fuel + 1, cs, acc =>
    match skipWs cs with
    | [] => none
    | c :: rest =>
      if c = ']' then some (.jarr acc, rest)
      else if c = ',' then
        match parseVal fuel rest with
        | some (v, r1) => parseElemsRest fuel r1 (acc ++ [v])
        | none => none
      else none

end

/-- ASCII-lowercase a string (enough for `encoding/json`'s
case-insensitive field matching on the ASCII tags used here). -/
def lowerAscii (s : String) : String :=
  String.mk (s.data.map Char.toLower)

/-- Apply one object member to the struct being decoded, as
`encoding/json` does for `SendWelcomeEmailPayload`: a key matching a
field's json tag (case-insensitively) must carry a string (a JSON null
leaves the field unchanged); unknown keys are skipped; a later duplicate
key overwrites an earlier one. -/
def applyMember (p : SendWelcomeEmailPayload) (k : String) (v : JVal) :
    Option SendWelcomeEmailPayload :=
  if lowerAscii k = "user_id" then
    match v with
    | .jstr s => some { p with UserID := s }
    | .null => some p
    | _ => none
  else if lowerAscii k = "email" then
    match v with
    | .jstr s => some { p with Email := s }
    | .null => some p
    | _ => none
  else if lowerAscii k = "name" then
    match v with
    | .jstr s => some { p with Name := s }
    | .null => some p
    | _ => none
  else some p

/-- Fold the members of a decoded JSON object into the zero-valued
struct. -/
def decodeSWEObj : List (String × JVal) → SendWelcomeEmailPayload →
    Option SendWelcomeEmailPayload
  | [], p => some p
  | (k, v) :: rest, p =>
    match applyMember p k v with
    | some p' => decodeSWEObj rest p'
    | none => none

/-- The zero value `var payload SendWelcomeEmailPayload`. -/
def zeroSWE : SendWelcomeEmailPayload := { UserID := "", Email := "", Name := "" }

/-- The `json.Unmarshal(t.Payload(), &payload)` step of
`SendWelcomeEmailHandler`: parse the bytes as one JSON value with nothing
but whitespace after it; a JSON object populates the struct field by
field, a JSON null leaves the zero value, anything else is a type
error. -/
def SendWelcomeEmailHandler.decode (data : String) :
    Except String SendWelcomeEmailPayload :=
  match parseVal (data.length + 8) data.data with
  | none => .error "invalid JSON"
  | some (v, rest) =>
    if skipWs rest = [] then
      match v with
      | .jobj members =>
        match decodeSWEObj members zeroSWE with
        | some p => .ok p
        | none => .error "json: cannot unmarshal value into Go struct field"
      | .null => .ok zeroSWE
      | _ => .error "json: cannot unmarshal value into Go value of type SendWelcomeEmailPayload"
    else .error "invalid character after top-level value"

/-- No double-quote character occurs in the string. -/
def noQuote (s : String) : Prop := ∀ c ∈ s.data, c ≠ '\"'

/-- Every character of the string is JSON whitespace. -/
def allWs (s : String) : Prop := ∀ c ∈ s.data, isWs c = true

/-- The payloads actually delivered to one inbox that starts `len` deep,
across a publish sequence with no consumer draining: each publish lands
iff the buffer still has space. -/
def deliveredTo (len : Nat) : List GoAny → List GoAny
  | [] => []
  | p :: ps =>
    if len < chanCapacity then p :: deliveredTo (len + 1) ps
    else deliveredTo len ps

/-- A concrete bus exercising the backpressure path: one subscriber
whose inbox has been filled to its capacity of 10 by ten publishes, then
a second, still-empty subscriber on the same topic. -/
def busFullExample : InMemPubSub :=
  ((publishSeq (emptyBus.SubscribeEvent UserCreatedInMemoryEvent).1
      UserCreatedInMemoryEvent
      (List.replicate 10 (.userCreated ⟨⟨9⟩, "Z", "z@x.com"⟩))).SubscribeEvent
    UserCreatedInMemoryEvent).1

/-- A world after the bus singleton has been created and one subscriber
has registered through it: the heap at the singleton reference holds a
non-empty registry. -/
def worldExample : World :=
  { heap := fun i =>
      if i = 0 then (emptyBus.SubscribeEvent UserCreatedInMemoryEvent).1
      else emptyBus,
    globalPubSub := some 0,
    nextRef := 1 }

/-!  Theorems.  -/

theorem validate_none_of_matches (topic : Topic) (payload : GoAny)
    (hm : matchesCatalog topic payload = true) :
    LowImportancePublisher.validate topic payload = none := by
  unfold matchesCatalog at hm
  simp only [Bool.or_eq_true, Bool.and_eq_true, decide_eq_true_eq] at hm
  unfold LowImportancePublisher.validate
  rcases hm with (⟨ht, hp⟩ | ⟨ht, hp⟩) | ⟨ht, hp⟩ <;> subst ht <;>
    simp +decide [UserCreatedInMemoryEvent, UserUpdatedInMemoryEvent,
      UserDeletedInMemoryEvent, hp]

theorem validate_unsupported (topic : Topic) (payload : GoAny)
    (hnot : topic ∉ eventCatalog) :
    LowImportancePublisher.validate topic payload
      = some (.unsupportedTopic topic) := by
  simp only [eventCatalog, List.mem_cons, List.not_mem_nil, or_false,
    not_or] at hnot
  obtain ⟨h1, h2, h3⟩ := hnot
  unfold LowImportancePublisher.validate
  rw [if_neg h1, if_neg h2, if_neg h3]

theorem validate_invalid (topic : Topic) (payload : GoAny)
    (hin : topic ∈ eventCatalog) (hm : matchesCatalog topic payload = false) :
    LowImportancePublisher.validate topic payload
      = some (.invalidPayloadType topic) := by
  simp only [eventCatalog, List.mem_cons, List.not_mem_nil, or_false] at hin
  unfold matchesCatalog at hm
  unfold LowImportancePublisher.validate
  rcases hin with ht | ht | ht <;> subst ht <;>
    simp +decide [UserCreatedInMemoryEvent, UserUpdatedInMemoryEvent,
      UserDeletedInMemoryEvent] at hm ⊢ <;> simp [hm]

theorem publish_ok (bus : InMemPubSub) (topic : Topic) (payload : GoAny)
    (hm : matchesCatalog topic payload = true) :
    LowImportancePublisher.Publish bus topic payload
      = (none, bus.PublishEvent topic payload) := by
  unfold LowImportancePublisher.Publish
  rw [validate_none_of_matches topic payload hm]

/-- C1: bus-tier Publish accepts exactly the Event Catalog — every
catalogued topic with its declared payload type publishes without error,
and any destination outside the catalog yields the unsupported-topic
error with the bus untouched (no delivery attempted). -/
theorem C1_bus_publish_catalog (bus : InMemPubSub) (topic : String)
    (payload : GoAny) :
    (topic ∈ eventCatalog → matchesCatalog topic payload = true →
      (LowImportancePublisher.Publish bus topic payload).1 = none)
  ∧ (topic ∉ eventCatalog →
      LowImportancePublisher.Publish bus topic payload
        = (some (.unsupportedTopic topic), bus)) := by
  constructor
  · intro _ hm
    rw [publish_ok bus topic payload hm]
  · intro hnot
    unfold LowImportancePublisher.Publish
    rw [validate_unsupported topic payload hnot]

theorem C1_witness :
    (LowImportancePublisher.Publish emptyBus UserCreatedInMemoryEvent
        (.userCreated ⟨⟨0⟩, "Ann", "a@x.com"⟩)).1 = none
  ∧ LowImportancePublisher.Publish emptyBus "user.bogus"
        (.userCreated ⟨⟨0⟩, "Ann", "a@x.com"⟩)
      = (some (.unsupportedTopic "user.bogus"), emptyBus) :=
  ⟨(C1_bus_publish_catalog emptyBus UserCreatedInMemoryEvent
      (.userCreated ⟨⟨0⟩, "Ann", "a@x.com"⟩)).1 (by decide) (by decide),
   (C1_bus_publish_catalog emptyBus "user.bogus"
      (.userCreated ⟨⟨0⟩, "Ann", "a@x.com"⟩)).2 (by decide)⟩

/-- C2: a catalogued topic with a payload of the wrong type is rejected
with the invalid-payload-type error before any fan-out; the returned bus
state is exactly the input state. -/
theorem C2_invalid_payload_rejected (bus : InMemPubSub) (topic : Topic)
    (payload : GoAny) (hin : topic ∈ eventCatalog)
    (hm : matchesCatalog topic payload = false) :
    LowImportancePublisher.Publish bus topic payload
      = (some (.invalidPayloadType topic), bus) := by
  unfold LowImportancePublisher.Publish
  rw [validate_invalid topic payload hin hm]

theorem C2_witness :
    LowImportancePublisher.Publish emptyBus UserCreatedInMemoryEvent
        (.other "junk")
      = (some (.invalidPayloadType UserCreatedInMemoryEvent), emptyBus) :=
  C2_invalid_payload_rejected emptyBus UserCreatedInMemoryEvent
    (.other "junk") (by decide) (by decide)

theorem trySend_subscribers (b : InMemPubSub) (topic : Topic)
    (payload : GoAny) (sub : Nat) :
    (b.trySend topic payload sub).subscribers = b.subscribers := by
  unfold InMemPubSub.trySend
  split <;> rfl

theorem trySend_nextCh (b : InMemPubSub) (topic : Topic) (payload : GoAny)
    (sub : Nat) :
    (b.trySend topic payload sub).nextCh = b.nextCh := by
  unfold InMemPubSub.trySend
  split <;> rfl

theorem trySend_chans_ne (b : InMemPubSub) (topic : Topic) (payload : GoAny)
    {sub ch : Nat} (h : ch ≠ sub) :
    (b.trySend topic payload sub).chans ch = b.chans ch := by
  unfold InMemPubSub.trySend
  split
  · simp [if_neg h]
  · rfl

theorem trySend_chans_self (b : InMemPubSub) (topic : Topic) (payload : GoAny)
    (sub : Nat) :
    (b.trySend topic payload sub).chans sub =
      if (b.chans sub).buf.length < chanCapacity
      then { b.chans sub with buf := (b.chans sub).buf ++ [payload] }
      else b.chans sub := by
  unfold InMemPubSub.trySend
  split <;> rename_i h <;> simp [h]

theorem trySend_dropLog (b : InMemPubSub) (topic : Topic) (payload : GoAny)
    (sub : Nat) :
    (b.trySend topic payload sub).dropLog =
      if (b.chans sub).buf.length < chanCapacity then b.dropLog
      else b.dropLog ++ [topic] := by
  unfold InMemPubSub.trySend
  split <;> rename_i h <;> simp [h]

theorem sendAll_spec (topic : Topic) (payload : GoAny) :
    ∀ (l : List Nat) (b : InMemPubSub), l.Nodup →
      (l.foldl (fun b sub => b.trySend topic payload sub) b).subscribers
          = b.subscribers
    ∧ (l.foldl (fun b sub => b.trySend topic payload sub) b).nextCh = b.nextCh
    ∧ (∀ ch, ch ∉ l →
        (l.foldl (fun b sub => b.trySend topic payload sub) b).chans ch
          = b.chans ch)
    ∧ (∀ ch ∈ l,
        (l.foldl (fun b sub => b.trySend topic payload sub) b).chans ch =
          if (b.chans ch).buf.length < chanCapacity
          then { b.chans ch with buf := (b.chans ch).buf ++ [payload] }
          else b.chans ch)
    ∧ (l.foldl (fun b sub => b.trySend topic payload sub) b).dropLog =
        b.dropLog ++ (l.filter
          (fun c => !decide ((b.chans c).buf.length < chanCapacity))).map
            (fun _ => topic) := by
  intro l
  induction l with
  | nil =>
    intro b _
    exact ⟨rfl, rfl, fun ch _ => rfl,
      fun ch hch => absurd hch (List.not_mem_nil ch), by simp⟩
  | cons c cs ih =>
    intro b hnd
    rw [List.nodup_cons] at hnd
    obtain ⟨hc, hnd'⟩ := hnd
    obtain ⟨H1, H2, H3, H4, H5⟩ := ih (b.trySend topic payload c) hnd'
    refine ⟨?_, ?_, ?_, ?_, ?_⟩
    · simp only [List.foldl_cons]
      rw [H1, trySend_subscribers]
    · simp only [List.foldl_cons]
      rw [H2, trySend_nextCh]
    · intro ch hch
      simp only [List.mem_cons, not_or] at hch
      obtain ⟨hne, hnotin⟩ := hch
      simp only [List.foldl_cons]
      rw [H3 ch hnotin, trySend_chans_ne b topic payload hne]
    · intro ch hch
      simp only [List.foldl_cons]
      rcases List.mem_cons.mp hch with rfl | hin
      · rw [H3 ch hc, trySend_chans_self]
      · have hne : ch ≠ c := fun h => hc (h ▸ hin)
        rw [H4 ch hin, trySend_chans_ne b topic payload hne]
    · simp only [List.foldl_cons]
      rw [H5, trySend_dropLog]
      have hfilter : cs.filter
            (fun x => !decide (((b.trySend topic payload c).chans x).buf.length
              < chanCapacity))
          = cs.filter
            (fun x => !decide ((b.chans x).buf.length < chanCapacity)) := by
        refine List.filter_congr ?_
        intro x hx
        have hne : x ≠ c := fun h => hc (h ▸ hx)
        rw [trySend_chans_ne b topic payload hne]
      rw [hfilter, List.filter_cons]
      by_cases hfull : (b.chans c).buf.length < chanCapacity
      · simp [hfull]
      · simp [hfull]

theorem publishEvent_spec (bus : InMemPubSub) (topic : Topic)
    (payload : GoAny) (hnd : (bus.subscribers topic).Nodup) :
    (bus.PublishEvent topic payload).subscribers = bus.subscribers
  ∧ (bus.PublishEvent topic payload).nextCh = bus.nextCh
  ∧ (∀ ch, ch ∉ bus.subscribers topic →
      (bus.PublishEvent topic payload).chans ch = bus.chans ch)
  ∧ (∀ ch ∈ bus.subscribers topic,
      (bus.PublishEvent topic payload).chans ch =
        if (bus.chans ch).buf.length < chanCapacity
        then { bus.chans ch with buf := (bus.chans ch).buf ++ [payload] }
        else bus.chans ch)
  ∧ (bus.PublishEvent topic payload).dropLog =
      bus.dropLog ++ ((bus.subscribers topic).filter
        (fun c => !decide ((bus.chans c).buf.length < chanCapacity))).map
          (fun _ => topic) :=
  sendAll_spec topic payload (bus.subscribers topic) bus hnd

/-- C3: for a valid (topic, payload) pair, Publish succeeds and every
subscriber registered under the topic before the call whose inbox is not
full receives exactly one appended copy of the payload; with zero
subscribers the publish still succeeds and the bus is unchanged (the
event is discarded). -/
theorem C3_fanout_delivery (bus : InMemPubSub) (topic : Topic)
    (payload : GoAny) (hm : matchesCatalog topic payload = true)
    (hnd : (bus.subscribers topic).Nodup) :
    (LowImportancePublisher.Publish bus topic payload).1 = none
  ∧ (∀ ch ∈ bus.subscribers topic,
      (bus.chans ch).buf.length < chanCapacity →
      ((LowImportancePublisher.Publish bus topic payload).2.chans ch).buf
        = (bus.chans ch).buf ++ [payload])
  ∧ (bus.subscribers topic = [] →
      (LowImportancePublisher.Publish bus topic payload).2 = bus) := by
  rw [publish_ok bus topic payload hm]
  refine ⟨rfl, ?_, ?_⟩
  · intro ch hch hspace
    have H4 := (publishEvent_spec bus topic payload hnd).2.2.2.1
    rw [H4 ch hch, if_pos hspace]
  · intro hempty
    unfold InMemPubSub.PublishEvent
    rw [hempty]
    rfl

theorem C3_witness :
    (LowImportancePublisher.Publish
        (emptyBus.SubscribeEvent UserCreatedInMemoryEvent).1
        UserCreatedInMemoryEvent
        (.userCreated ⟨⟨1⟩, "Ann", "a@x.com"⟩)).1 = none
  ∧ ((LowImportancePublisher.Publish
        (emptyBus.SubscribeEvent UserCreatedInMemoryEvent).1
        UserCreatedInMemoryEvent
        (.userCreated ⟨⟨1⟩, "Ann", "a@x.com"⟩)).2.chans 0).buf
      = [] ++ [.userCreated ⟨⟨1⟩, "Ann", "a@x.com"⟩] :=
  ⟨(C3_fanout_delivery (emptyBus.SubscribeEvent UserCreatedInMemoryEvent).1
      UserCreatedInMemoryEvent (.userCreated ⟨⟨1⟩, "Ann", "a@x.com"⟩)
      (by decide) (by decide)).1,
   (C3_fanout_delivery (emptyBus.SubscribeEvent UserCreatedInMemoryEvent).1
      UserCreatedInMemoryEvent (.userCreated ⟨⟨1⟩, "Ann", "a@x.com"⟩)
      (by decide) (by decide)).2.1 0 (by decide) (by decide)⟩

/-- C4: publishing a valid pair while one registered inbox is full (10
buffered payloads, no draining) still succeeds, does not change that
inbox, records a drop diagnostic for the topic, and still delivers to
every registered inbox with spare capacity. -/
theorem C4_backpressure_drop (bus : InMemPubSub) (topic : Topic)
    (payload : GoAny) (ch : Nat)
    (hm : matchesCatalog topic payload = true)
    (hnd : (bus.subscribers topic).Nodup)
    (hch : ch ∈ bus.subscribers topic)
    (hfull : (bus.chans ch).buf.length = chanCapacity) :
    (LowImportancePublisher.Publish bus topic payload).1 = none
  ∧ (LowImportancePublisher.Publish bus topic payload).2.chans ch
      = bus.chans ch
  ∧ (∃ ds, (LowImportancePublisher.Publish bus topic payload).2.dropLog
        = bus.dropLog ++ ds ∧ topic ∈ ds)
  ∧ (∀ ch' ∈ bus.subscribers topic,
      (bus.chans ch').buf.length < chanCapacity →
      ((LowImportancePublisher.Publish bus topic payload).2.chans ch').buf
        = (bus.chans ch').buf ++ [payload]) := by
  rw [publish_ok bus topic payload hm]
  obtain ⟨H1, H2, H3, H4, H5⟩ := publishEvent_spec bus topic payload hnd
  refine ⟨rfl, ?_, ?_, ?_⟩
  · rw [H4 ch hch, if_neg (by omega)]
  · refine ⟨_, H5, ?_⟩
    have hmem : ch ∈ (bus.subscribers topic).filter
        (fun c => !decide ((bus.chans c).buf.length < chanCapacity)) :=
      List.mem_filter.mpr ⟨hch, by simp [hfull]⟩
    exact List.mem_map.mpr ⟨ch, hmem, rfl⟩
  · intro ch' hch' hspace
    rw [H4 ch' hch', if_pos hspace]

theorem C4_witness :
    (LowImportancePublisher.Publish busFullExample UserCreatedInMemoryEvent
        (.userCreated ⟨⟨7⟩, "Ann", "a@x.com"⟩)).1 = none
  ∧ (LowImportancePublisher.Publish busFullExample UserCreatedInMemoryEvent
        (.userCreated ⟨⟨7⟩, "Ann", "a@x.com"⟩)).2.chans 0
      = busFullExample.chans 0
  ∧ ((LowImportancePublisher.Publish busFullExample UserCreatedInMemoryEvent
        (.userCreated ⟨⟨7⟩, "Ann", "a@x.com"⟩)).2.chans 1).buf
      = (busFullExample.chans 1).buf
          ++ [.userCreated ⟨⟨7⟩, "Ann", "a@x.com"⟩] :=
  ⟨(C4_backpressure_drop busFullExample UserCreatedInMemoryEvent
      (.userCreated ⟨⟨7⟩, "Ann", "a@x.com"⟩) 0 (by decide) (by decide)
      (by decide) (by decide)).1,
   (C4_backpressure_drop busFullExample UserCreatedInMemoryEvent
      (.userCreated ⟨⟨7⟩, "Ann", "a@x.com"⟩) 0 (by decide) (by decide)
      (by decide) (by decide)).2.1,
   (C4_backpressure_drop busFullExample UserCreatedInMemoryEvent
      (.userCreated ⟨⟨7⟩, "Ann", "a@x.com"⟩) 0 (by decide) (by decide)
      (by decide) (by decide)).2.2.2 1 (by decide) (by decide)⟩

theorem unsubscribe_mem_subscribers (bus : InMemPubSub) (topic : Topic)
    (ch : Nat) (hm : ch ∈ bus.subscribers topic) :
    (bus.UnsubscribeEvent topic ch).subscribers topic
      = (bus.subscribers topic).erase ch := by
  unfold InMemPubSub.UnsubscribeEvent
  rw [if_pos hm]
  simp

theorem unsubscribe_mem_closed (bus : InMemPubSub) (topic : Topic)
    (ch : Nat) (hm : ch ∈ bus.subscribers topic) :
    ((bus.UnsubscribeEvent topic ch).chans ch).closed = true := by
  unfold InMemPubSub.UnsubscribeEvent
  rw [if_pos hm]
  simp

theorem unsubscribe_not_mem (b : InMemPubSub) (topic : Topic) (ch : Nat)
    (h : ch ∉ b.subscribers topic) :
    b.UnsubscribeEvent topic ch = b := by
  unfold InMemPubSub.UnsubscribeEvent
  rw [if_neg h]

/-- C6: after an unsubscribe has removed and closed an inbox, a second
unsubscribe with the same (topic, inbox) pair is a no-op: the bus state
is exactly the state after the first call, so the registry is unchanged
and the close is not attempted again. -/
theorem C6_unsubscribe_idempotent (bus : InMemPubSub) (topic : Topic)
    (ch : Nat) (hc : (bus.subscribers topic).count ch = 1) :
    ((bus.UnsubscribeEvent topic ch).chans ch).closed = true
  ∧ ch ∉ (bus.UnsubscribeEvent topic ch).subscribers topic
  ∧ (bus.UnsubscribeEvent topic ch).UnsubscribeEvent topic ch
      = bus.UnsubscribeEvent topic ch := by
  have hm : ch ∈ bus.subscribers topic :=
    List.count_pos_iff.mp (by omega)
  have hout : ch ∉ (bus.subscribers topic).erase ch := by
    rw [← List.count_eq_zero, List.count_erase_self]
    omega
  have hnotin : ch ∉ (bus.UnsubscribeEvent topic ch).subscribers topic := by
    rw [unsubscribe_mem_subscribers bus topic ch hm]
    exact hout
  exact ⟨unsubscribe_mem_closed bus topic ch hm, hnotin,
    unsubscribe_not_mem (bus.UnsubscribeEvent topic ch) topic ch hnotin⟩

theorem C6_witness :
    (((emptyBus.SubscribeEvent UserCreatedInMemoryEvent).1.UnsubscribeEvent
        UserCreatedInMemoryEvent 0).chans 0).closed = true
  ∧ 0 ∉ ((emptyBus.SubscribeEvent UserCreatedInMemoryEvent).1.UnsubscribeEvent
        UserCreatedInMemoryEvent 0).subscribers UserCreatedInMemoryEvent
  ∧ ((emptyBus.SubscribeEvent UserCreatedInMemoryEvent).1.UnsubscribeEvent
        UserCreatedInMemoryEvent 0).UnsubscribeEvent
        UserCreatedInMemoryEvent 0
      = (emptyBus.SubscribeEvent UserCreatedInMemoryEvent).1.UnsubscribeEvent
        UserCreatedInMemoryEvent 0 :=
  C6_unsubscribe_idempotent (emptyBus.SubscribeEvent UserCreatedInMemoryEvent).1
    UserCreatedInMemoryEvent 0 (by decide)

theorem deliveredTo_cons (len : Nat) (p : GoAny) (ps : List GoAny) :
    deliveredTo len (p :: ps) =
      if len < chanCapacity then p :: deliveredTo (len + 1) ps
      else deliveredTo len ps := rfl

theorem deliveredTo_sublist (len : Nat) (ps : List GoAny) :
    (deliveredTo len ps).Sublist ps := by
  induction ps generalizing len with
  | nil => exact List.nil_sublist _
  | cons p ps ih =>
    unfold deliveredTo
    split
    · exact List.Sublist.cons₂ p (ih (len + 1))
    · exact List.Sublist.cons p (ih len)

/-- C7: FIFO per subscriber — across any sequence of publishes to one
topic with no draining, one inbox receives exactly the payloads for
which it had space, appended in publish order (a sublist of the publish
sequence in the original order). -/
theorem C7_fifo_per_subscriber (topic : Topic) (ps : List GoAny) :
    ∀ (bus : InMemPubSub) (ch : Nat), (bus.subscribers topic).Nodup →
      ch ∈ bus.subscribers topic →
      ((publishSeq bus topic ps).chans ch).buf
          = (bus.chans ch).buf ++ deliveredTo (bus.chans ch).buf.length ps
      ∧ (deliveredTo (bus.chans ch).buf.length ps).Sublist ps := by
  induction ps with
  | nil =>
    intro bus ch _ _
    exact ⟨by simp [publishSeq, deliveredTo], List.nil_sublist _⟩
  | cons p ps ih =>
    intro bus ch hnd hch
    refine ⟨?_, deliveredTo_sublist _ _⟩
    obtain ⟨H1, _, _, H4, _⟩ := publishEvent_spec bus topic p hnd
    have hnd' : ((bus.PublishEvent topic p).subscribers topic).Nodup := by
      rw [H1]; exact hnd
    have hch' : ch ∈ (bus.PublishEvent topic p).subscribers topic := by
      rw [H1]; exact hch
    have hseq : publishSeq bus topic (p :: ps)
        = publishSeq (bus.PublishEvent topic p) topic ps := by
      simp [publishSeq, List.foldl_cons]
    obtain ⟨hbuf, _⟩ := ih (bus.PublishEvent topic p) ch hnd' hch'
    by_cases hspace : (bus.chans ch).buf.length < chanCapacity
    · rw [hseq, hbuf, H4 ch hch, if_pos hspace, deliveredTo_cons,
        if_pos hspace]
      simp
    · rw [hseq, hbuf, H4 ch hch, if_neg hspace, deliveredTo_cons,
        if_neg hspace]

theorem C7_witness :
    ((publishSeq (emptyBus.SubscribeEvent UserCreatedInMemoryEvent).1
        UserCreatedInMemoryEvent
        [.userCreated ⟨⟨1⟩, "A", "a@x.com"⟩,
         .userCreated ⟨⟨2⟩, "B", "b@x.com"⟩]).chans 0).buf
      = [] ++ deliveredTo 0
        [.userCreated ⟨⟨1⟩, "A", "a@x.com"⟩,
         .userCreated ⟨⟨2⟩, "B", "b@x.com"⟩]
  ∧ (deliveredTo 0
        [.userCreated ⟨⟨1⟩, "A", "a@x.com"⟩,
         .userCreated ⟨⟨2⟩, "B", "b@x.com"⟩]).Sublist
        [.userCreated ⟨⟨1⟩, "A", "a@x.com"⟩,
         .userCreated ⟨⟨2⟩, "B", "b@x.com"⟩] :=
  C7_fifo_per_subscriber UserCreatedInMemoryEvent
    [.userCreated ⟨⟨1⟩, "A", "a@x.com"⟩, .userCreated ⟨⟨2⟩, "B", "b@x.com"⟩]
    (emptyBus.SubscribeEvent UserCreatedInMemoryEvent).1 0
    (by decide) (by decide)

/-- C5: the queue-tier publisher fails exactly when the external enqueue
service fails, and the single enqueue request it issues carries
max retry 3 and the priority queue class "critical". -/
theorem C5_queue_publish (svc : AsynqTask → Except String AsynqTaskInfo)
    (taskType : String) (payload : GoAny) :
    (HighImportancePublisher.Publish svc taskType payload = none ↔
      ∃ info, svc (mkTask taskType payload) = .ok info)
  ∧ (mkTask taskType payload).maxRetry = 3
  ∧ (mkTask taskType payload).queue = "critical" := by
  refine ⟨?_, rfl, rfl⟩
  unfold HighImportancePublisher.Publish AsynqClientImpl.EnqueueTask
  cases h : svc (mkTask taskType payload) with
  | error e => simp
  | ok info => simp

/-- C8: a subscriber loop receiving a payload that is not a
UserCreatedPayload logs one diagnostic, discards it, and keeps
processing the rest of the sequence exactly as it would have without the
malformed payload; the side effect is never invoked for it. -/
theorem C8_malformed_consumed_payload (e : GoAny)
    (he : isUserCreatedPayload e = false) (rest : List LoopEvent) :
    (runUserCreatedLoop (.msg e :: rest)).1 = (runUserCreatedLoop rest).1
  ∧ (runUserCreatedLoop (.msg e :: rest)).2
      = (runUserCreatedLoop rest).2 + 1 := by
  cases e with
  | userCreated p => simp [isUserCreatedPayload] at he
  | userUpdated p => exact ⟨rfl, rfl⟩
  | userDeleted p => exact ⟨rfl, rfl⟩
  | sendWelcomeEmail p => exact ⟨rfl, rfl⟩
  | other tag => exact ⟨rfl, rfl⟩

theorem C8_witness :
    (runUserCreatedLoop (.msg (.other "bad") ::
        [.msg (.userCreated ⟨⟨1⟩, "Ann", "a@x.com"⟩), .cancelled])).1
      = (runUserCreatedLoop
          [.msg (.userCreated ⟨⟨1⟩, "Ann", "a@x.com"⟩), .cancelled]).1
  ∧ (runUserCreatedLoop (.msg (.other "bad") ::
        [.msg (.userCreated ⟨⟨1⟩, "Ann", "a@x.com"⟩), .cancelled])).2
      = (runUserCreatedLoop
          [.msg (.userCreated ⟨⟨1⟩, "Ann", "a@x.com"⟩), .cancelled]).2 + 1 :=
  C8_malformed_consumed_payload (.other "bad") (by decide)
    [.msg (.userCreated ⟨⟨1⟩, "Ann", "a@x.com"⟩), .cancelled]

/-- C9: NewInMemoryBus is a process-wide singleton — on any world in
which the singleton already exists (with arbitrary registry and channel
contents at its reference), a further call returns that same reference
and leaves the world completely untouched, so the subscriber registry is
never reset and subscriptions made through one returned reference are
visible to publishes made through any other. -/
theorem C9_singleton_bus (w : World) (r : Nat)
    (h : w.globalPubSub = some r) : NewInMemoryBus w = (w, r) := by
  unfold NewInMemoryBus
  rw [h]

theorem C9_witness : NewInMemoryBus worldExample = (worldExample, 0) :=
  C9_singleton_bus worldExample 0 rfl

/-- C10 counterexample: for the all-empty payload the `%v` rendering is
an (whitespace-only) JSON object, so the handler's decode succeeds and
returns exactly the original payload — the serialize/deserialize pair
does round-trip there, against the claim that decoding fails for every
payload value. -/
theorem C10_counterexample :
    SendWelcomeEmailHandler.decode
        (goFmt (.sendWelcomeEmail { UserID := "", Email := "", Name := "" }))
      = .ok { UserID := "", Email := "", Name := "" } := rfl

theorem dropWhile_eq_cons_head_false {p : Char → Bool} :
    ∀ {l : List Char} {c : Char} {t : List Char},
      l.dropWhile p = c :: t → p c = false := by
  intro l
  induction l with
  | nil => intro c t h; simp [List.dropWhile] at h
  | cons a l ih =>
    intro c t h
    rw [List.dropWhile_cons] at h
    by_cases ha : p a = true
    · rw [if_pos ha] at h
      exact ih h
    · rw [if_neg ha] at h
      injection h with h1 _
      rw [← h1]
      simpa using ha

theorem dropWhile_eq_cons_mem {p : Char → Bool} :
    ∀ {l : List Char} {c : Char} {t : List Char},
      l.dropWhile p = c :: t → c ∈ l := by
  intro l
  induction l with
  | nil => intro c t h; simp [List.dropWhile] at h
  | cons a l ih =>
    intro c t h
    rw [List.dropWhile_cons] at h
    by_cases ha : p a = true
    · rw [if_pos ha] at h
      exact List.mem_cons_of_mem a (ih h)
    · rw [if_neg ha] at h
      injection h with h1 _
      exact h1 ▸ List.mem_cons_self a l

theorem dropWhile_append_of_ne_nil {p : Char → Bool} {l₁ l₂ : List Char}
    (h : l₁.dropWhile p ≠ []) :
    (l₁ ++ l₂).dropWhile p = l₁.dropWhile p ++ l₂ := by
  rw [List.dropWhile_append, if_neg (by simpa using h)]

theorem dropWhile_append_singleton_ne_nil {p : Char → Bool} {l : List Char}
    {a : Char} (ha : p a = false) : (l ++ [a]).dropWhile p ≠ [] := by
  intro h
  rw [List.dropWhile_eq_nil_iff] at h
  have := h a (by simp)
  rw [ha] at this
  exact Bool.false_ne_true this

theorem parseVal_open_brace (fuel : Nat) (cs : List Char) :
    parseVal (fuel + 1) ('\x7b' :: cs) = parseMembersFirst fuel cs := rfl

theorem parseMembersFirst_close {fuel : Nat} {cs : List Char}
    {t : List Char} (hsk : skipWs cs = '\x7d' :: t) :
    parseMembersFirst (fuel + 1) cs = some (.jobj [], t) := by
  unfold parseMembersFirst
  rw [hsk]
  simp

theorem parseMembersFirst_none {fuel : Nat} {cs : List Char} {c : Char}
    {t : List Char} (hsk : skipWs cs = c :: t) (hq : c ≠ '\"')
    (hb : c ≠ '\x7d') : parseMembersFirst (fuel + 1) cs = none := by
  unfold parseMembersFirst
  rw [hsk]
  simp [hb, hq]

/-- C10 (amended): the serialize/deserialize pair is not a round-trip
for any payload whose fields are quote-free and not all whitespace: the
`%v` rendering `\x7bUserID Email Name\x7d` is then never JSON the handler can
unmarshal, so the decode fails.  (The original universally quantified
claim is refuted by degenerate payloads — see the counterexample — whose
rendering happens to parse as an empty JSON object.) -/
theorem C10_roundtrip_fails (p : SendWelcomeEmailPayload)
    (hq : noQuote p.UserID ∧ noQuote p.Email ∧ noQuote p.Name)
    (hw : ¬(allWs p.UserID ∧ allWs p.Email ∧ allWs p.Name)) :
    (SendWelcomeEmailHandler.decode
        (goFmt (.sendWelcomeEmail p))).toOption = none := by
  obtain ⟨hqU, hqE, hqN⟩ := hq
  set s := goFmt (.sendWelcomeEmail p) with hs
  set body := p.UserID.data ++ ' ' :: p.Email.data ++ ' ' :: p.Name.data
    with hbody
  have hdata : s.data = '\x7b' :: (body ++ ['\x7d']) := by
    simp [hs, goFmt, String.data_append, hbody]
  have hex : ∃ c ∈ body, isWs c = false := by
    by_contra hall
    push_neg at hall
    refine hw ⟨?_, ?_, ?_⟩ <;> intro c hc <;>
      [skip; skip; skip] <;>
      · have hcb : c ∈ body := by
          simp only [hbody, List.mem_append, List.mem_cons]
          tauto
        have := hall c hcb
        revert this
        cases isWs c <;> simp
  obtain ⟨cw, hcwmem, hcwws⟩ := hex
  have hne : body.dropWhile isWs ≠ [] := by
    intro hnil
    rw [List.dropWhile_eq_nil_iff] at hnil
    have := hnil cw hcwmem
    rw [hcwws] at this
    exact Bool.false_ne_true this
  obtain ⟨c₀, t, hdw⟩ : ∃ c t, body.dropWhile isWs = c :: t := by
    cases hd : body.dropWhile isWs with
    | nil => exact absurd hd hne
    | cons c t => exact ⟨c, t, rfl⟩
  have hc₀mem : c₀ ∈ body := dropWhile_eq_cons_mem hdw
  have hc₀q : c₀ ≠ '\"' := by
    intro hceq
    subst hceq
    rw [hbody] at hc₀mem
    rcases List.mem_append.mp hc₀mem with h | h
    · rcases List.mem_append.mp h with h1 | h1
      · exact hqU _ h1 rfl
      · rcases List.mem_cons.mp h1 with h2 | h2
        · exact absurd h2 (by decide)
        · exact hqE _ h2 rfl
    · rcases List.mem_cons.mp h with h1 | h1
      · exact absurd h1 (by decide)
      · exact hqN _ h1 rfl
  have hskip : skipWs (body ++ ['\x7d']) = c₀ :: (t ++ ['\x7d']) := by
    unfold skipWs
    rw [dropWhile_append_of_ne_nil hne, hdw]
    rfl
  have h1 : parseVal (s.length + 8) ('\x7b' :: (body ++ ['\x7d']))
      = parseMembersFirst (s.length + 7) (body ++ ['\x7d']) :=
    parseVal_open_brace (s.length + 7) (body ++ ['\x7d'])
  by_cases hbr : c₀ = '\x7d'
  · subst hbr
    have h2 : parseMembersFirst (s.length + 7) (body ++ ['\x7d'])
        = some (.jobj [], t ++ ['\x7d']) :=
      @parseMembersFirst_close (s.length + 6) (body ++ ['\x7d'])
        (t ++ ['\x7d']) hskip
    have h3 : skipWs (t ++ ['\x7d']) ≠ [] :=
      dropWhile_append_singleton_ne_nil (by decide)
    unfold SendWelcomeEmailHandler.decode
    rw [hdata, h1, h2]
    simp [h3, Except.toOption]
  · have h2 : parseMembersFirst (s.length + 7) (body ++ ['\x7d']) = none :=
      @parseMembersFirst_none (s.length + 6) (body ++ ['\x7d']) c₀
        (t ++ ['\x7d']) hskip hc₀q hbr
    unfold SendWelcomeEmailHandler.decode
    rw [hdata, h1, h2]
    simp [Except.toOption]

theorem C10_witness :
    (SendWelcomeEmailHandler.decode
        (goFmt (.sendWelcomeEmail
          { UserID := "abc", Email := "a@x.com", Name := "Ann" }))).toOption
      = none :=
  C10_roundtrip_fails { UserID := "abc", Email := "a@x.com", Name := "Ann" }
    ⟨by unfold noQuote; decide, by unfold noQuote; decide,
     by unfold noQuote; decide⟩
    (by unfold allWs; decide)

end Mingkwan
